import Mathlib

/-!
Verification of the pi-extensions remote-control core (daemon and session
endpoint).  Each definition is a shallow embedding of the corresponding
JavaScript/TypeScript function from the repository:

* `checkRateLimit`      — rate-limit.ts (the per-peer relay rate limiter)
* `parsePeerAddress`    — shared.js / shared.ts
* `getRelayTimeout`     — daemon.js
* `checkMaxMsgSize` and the newline-framed data handlers — max-size.ts,
  daemon.js `startDaemonServer`/`startTcpServer`, and the session endpoint
  `createServer` (index.ts)
* `handleClear`         — the `clear` branch of the session endpoint
  `handleCommand` (index.ts)
* `handleRelayCase`     — the `relay` branch of daemon.js `handleDaemonCommand`
* `onPeerSocketClose`   — the socket `close` handler installed by
  daemon.js `setupPeerSocket`, and `scheduleReconnect`
* `removeLocalSession` / `addLocalSession` / the `names/` store — daemon.js
  and shared.js
* `resetAutoShutdown`   — daemon.js

JavaScript strings are modelled as `String` (or `List Char` where the code
does index arithmetic), `Date.now()` timestamps as `Nat` milliseconds,
`Map` objects as functions into `Option`, and asynchronous socket outcomes
as explicit `Except` oracles passed in as arguments.
-/

namespace RemoteControl

/-! ### Rate limiter (rate-limit.ts `checkRateLimit`) -/

/-- `WINDOW_MS = 60_000` — 1 minute windows. -/
def WINDOW_MS : Nat := 60000

/-- `LIMIT = 30` — 30 relay actions per peer per minute. -/
def LIMIT : Nat := 30

/-- One entry of the limiter's `Map<string, {count, window}>`. -/
structure RLEntry where
  count : Nat
  window : Nat
deriving DecidableEq, Repr

/-- The limiter's mutable `state` map. -/
def RLState : Type := String → Option RLEntry

/-- The empty `state` map the module starts with. -/
def rlInit : RLState := fun _ => none

/-- `state.set(peerKey, v)`. -/
def rlSet (s : RLState) (peerKey : String) (v : RLEntry) : RLState :=
  fun k => if k = peerKey then some v else s k

/-- Embedding of `checkRateLimit(peerKey)`: `now` stands for `Date.now()`
(milliseconds), and the updated map is returned alongside the decision.
`currentWindow = Math.floor(now / WINDOW_MS)`; a missing or stale entry is
reset to `{count: 1, window: currentWindow}` and the request admitted;
below `LIMIT` the count is incremented and the request admitted; otherwise
the request is refused and the map unchanged. -/
def checkRateLimit (peerKey : String) (now : Nat) (s : RLState) : Bool × RLState :=
  let currentWindow := now / WINDOW_MS
  match s peerKey with
  | none => (true, rlSet s peerKey ⟨1, currentWindow⟩)
  | some entry =>
    if entry.window ≠ currentWindow then
      (true, rlSet s peerKey ⟨1, currentWindow⟩)
    else if entry.count < LIMIT then
      (true, rlSet s peerKey ⟨entry.count + 1, entry.window⟩)
    else
      (false, s)

/-- Run the limiter over a trace of `(peerKey, Date.now())` requests,
returning the list of admit/refuse decisions in order. -/
def runRL (s : RLState) : List (String × Nat) → List Bool
  | [] => []
  | (k, t) :: rest =>
    let r := checkRateLimit k t s
    r.1 :: runRL r.2 rest

/-- Number of requests of key `key` whose timestamp falls in the fixed
window `w` (that is, `t / WINDOW_MS = w`) that the limiter admits, when
the limiter is run over the trace starting from state `s`. -/
def countAdmitted (key : String) (w : Nat) (s : RLState) : List (String × Nat) → Nat
  | [] => 0
  | (k, t) :: rest =>
    let r := checkRateLimit k t s
    (if k = key ∧ t / WINDOW_MS = w ∧ r.1 = true then 1 else 0) + countAdmitted key w r.2 rest

/-! ### Peer address parsing (shared.js `parsePeerAddress`) -/

/-- `DEFAULT_PORT = 7433`.  Ports are JS numbers; the guard below can
accept negative numerals, so the port is modelled as an `Int`. -/
def DEFAULT_PORT : Int := 7433

/-- Split a character list at its LAST colon, mirroring
`peer.lastIndexOf(":")` followed by the two `slice` calls: the result is
`some (before, after)` where `before ++ ':' :: after` is the input and
`after` is colon-free on the right of the last colon; `none` when the
input has no colon. -/
def lastColonSplit : List Char → Option (List Char × List Char)
  | [] => none
  | c :: rest =>
    match lastColonSplit rest with
    | some (b, a) => some (c :: b, a)
    | none => if c = ':' then some ([], rest) else none

/-- Value of a list of decimal digits, most significant first. -/
def digitsToNat (l : List Char) : Nat :=
  l.foldl (fun n c => n * 10 + (c.toNat - 48)) 0

/-- Embedding of the guard
`!isNaN(portNum) && String(portNum) === potentialPort` with
`portNum = parseInt(potentialPort, 10)`: `parseInt` accepts an optional
sign before the digits, and `String` renders an integer canonically —
a `-` exactly for negative values, never a `+`, and no leading zeros.
So the guard holds exactly when the string is `"0"`, or a nonempty digit
string not starting with `'0'`, optionally preceded by `'-'` (note
`"-0"` fails: `String(parseInt("-0")) === "0"`).  Exact for numerals
inside the double-precision integer range, which covers every port. -/
def canonInt (l : List Char) : Option Int :=
  if l = ['0'] then some 0
  else
    match l with
    | '-' :: rest =>
      if rest ≠ [] ∧ rest.all (fun c => c.isDigit) ∧ rest.head? ≠ some '0' then
        some (-(digitsToNat rest : Int))
      else none
    | _ =>
      if l ≠ [] ∧ l.all (fun c => c.isDigit) ∧ l.head? ≠ some '0' then
        some ((digitsToNat l : Int))
      else none

/-- Embedding of `parsePeerAddress(peer)`: if the segment after the last
colon passes the canonical-numeral guard it is the port and the host is
the part before that colon; otherwise the whole string is the host and
the port is `DEFAULT_PORT`. -/
def parsePeerAddress (peer : String) : String × Int :=
  match lastColonSplit peer.data with
  | some (before, after) =>
    match canonInt after with
    | some portNum => (String.mk before, portNum)
    | none => (peer, DEFAULT_PORT)
  | none => (peer, DEFAULT_PORT)

/-! ### Frame size limit and newline framing
(max-size.ts, daemon.js `startDaemonServer` / `startTcpServer`, and the
session endpoint `createServer`) -/

/-- `MAX_MSG_BYTES = 8192`. -/
def MAX_MSG_BYTES : Nat := 8192

/-- UTF-8 byte width of one character (what `Buffer.byteLength` counts). -/
def csize (c : Char) : Nat :=
  if c.toNat < 128 then 1
  else if c.toNat < 2048 then 2
  else if c.toNat < 65536 then 3
  else 4

/-- `Buffer.byteLength(s, "utf8")` on a JS string modelled as `List Char`. -/
def byteLen (s : List Char) : Nat := (s.map csize).sum

/-- Embedding of max-size.ts `checkMaxMsgSize(chunk)`. -/
def checkMaxMsgSize (chunk : List Char) : Bool := byteLen chunk ≤ MAX_MSG_BYTES

/-- The whitespace class removed by JS `String.prototype.trim` (the ASCII
part, which covers every wire frame). -/
def isJsWs (c : Char) : Bool :=
  c = ' ' ∨ c = '\t' ∨ c = '\n' ∨ c = '\r' ∨ c = '\x0b' ∨ c = '\x0c'

/-- `line.trim()`. -/
def jsTrim (s : List Char) : List Char :=
  ((s.dropWhile isJsWs).reverse.dropWhile isJsWs).reverse

/-- `buffer.split("\n")` — every maximal newline-free run, keeping empty
runs, so the result always has one more element than the newline count. -/
def splitNl : List Char → List (List Char)
  | [] => [[]]
  | c :: rest =>
    if c = '\n' then [] :: splitNl rest
    else
      match splitNl rest with
      | [] => [[c]]
      | l :: ls => (c :: l) :: ls

/-- Outcome of feeding one `data` chunk to a size-checked listener:
the retained partial line, how many size-error frames were written,
whether `socket.destroy()` ran, and the trimmed lines handed on to the
JSON/command layer. -/
structure StepOut where
  newBuf : List Char
  errors : Nat
  closed : Bool
  processed : List (List Char)
deriving DecidableEq, Repr

/-- The per-line loop shared by daemon.js `startDaemonServer` and
`startTcpServer`: empty lines are skipped; a trimmed line failing
`checkMaxMsgSize` writes one size error, destroys the socket and abandons
the rest; an accepted line is handed to `JSON.parse`/dispatch (recorded
here in `processed`). -/
def processLines : List (List Char) → Nat × Bool × List (List Char)
  | [] => (0, false, [])
  | l :: rest =>
    let t := jsTrim l
    if t = [] then processLines rest
    else if ¬ checkMaxMsgSize t then (1, true, [])
    else
      let r := processLines rest
      (r.1, r.2.1, t :: r.2.2)

/-- One `data` event on daemon.js's `daemon.sock` listener or its peer TCP
listener: the whole chunk is size-checked first (oversize chunk: one error
frame, destroy); then the chunk is appended to the per-connection buffer,
complete lines are split off (the trailing partial is retained), and each
line runs through `processLines`. -/
def daemonDataStep (buf chunk : List Char) : StepOut :=
  if ¬ checkMaxMsgSize chunk then ⟨buf, 1, true, []⟩
  else
    let parts := splitNl (buf ++ chunk)
    let r := processLines parts.dropLast
    ⟨(parts.getLast?).getD [], r.1, r.2.1, r.2.2⟩

/-- Feed a sequence of chunks to a daemon listener connection; after a
destroy no further chunks are delivered.  Returns the total size-error
count, whether the connection was closed, and all processed lines. -/
def daemonRun (buf : List Char) : List (List Char) → Nat × Bool × List (List Char)
  | [] => (0, false, [])
  | ch :: rest =>
    let o := daemonDataStep buf ch
    if o.closed then (o.errors, true, o.processed)
    else
      let r := daemonRun o.newBuf rest
      (o.errors + r.1, r.2.1, o.processed ++ r.2.2)

/-- One `data` event on the session endpoint's `createServer` listener
(index.ts): complete lines are split off and trimmed, empty lines are
skipped, and EVERY remaining line is handed to `parseLocalCommand` /
`handleCommand`. No size check of any kind is performed and the
connection is never closed by this handler. Returns the retained partial
line and the lines handed on. -/
def endpointDataStep (buf chunk : List Char) : List Char × List (List Char) :=
  let parts := splitNl (buf ++ chunk)
  ((parts.getLast?).getD [], (parts.dropLast.map jsTrim).filter (fun t => t ≠ []))

/-! ### Relay timeout choice (daemon.js `getRelayTimeout`) -/

/-- Embedding of daemon.js `getRelayTimeout(command)`, a switch on
`command.type` (milliseconds). -/
def getRelayTimeout (ctype : String) : Nat :=
  if ctype = "get_message" ∨ ctype = "clear" then 15000
  else if ctype = "get_summary" then 60000
  else if ctype = "send" then 300000
  else 10000

/-! ### The session endpoint `clear` command
(the `command.type === "clear"` branch of index.ts `handleCommand`,
together with `getFirstEntryId`) -/

/-- One entry of `ctx.sessionManager.getEntries()`. -/
structure SessionEntry where
  id : String
  parentId : Option String
deriving DecidableEq, Repr

/-- Embedding of `getFirstEntryId(ctx)`: `undefined` on an empty entry
list, else the id of the first entry with `parentId === null`, falling
back to the id of the first entry (`root?.id ?? entries[0]?.id`). -/
def getFirstEntryId (entries : List SessionEntry) : Option String :=
  match entries with
  | [] => none
  | e0 :: _ =>
    match entries.find? (fun e => e.parentId = none) with
    | some root => some root.id
    | none => some e0.id

/-- The slice of the endpoint's `ExtensionContext` the `clear` branch
reads: `ctx.isIdle()`, `ctx.sessionManager.getEntries()` and
`ctx.sessionManager.getLeafId()`.  `rewindTo(id)` moves the leaf. -/
structure SessionCtx where
  isIdle : Bool
  entries : List SessionEntry
  leafId : String
deriving DecidableEq, Repr

/-- The wire form of a `clear` request: `{type: "clear", summarize?}`. -/
structure ClearCmd where
  summarize : Bool
deriving DecidableEq, Repr

/-- The four responses the `clear` branch can produce. -/
inductive ClearOutcome where
  /-- `success:false, error:"Session is busy - wait for turn to complete"` -/
  | busyErr
  /-- `success:false, error:"No entries in session"` -/
  | noEntriesErr
  /-- `success:true, data:{cleared:true, alreadyAtRoot:true}` -/
  | alreadyAtRoot
  /-- `success:true, data:{cleared:true, targetId}` after `rewindTo` -/
  | cleared (targetId : String)
deriving DecidableEq, Repr

/-- The `success` field of the response envelope for each outcome. -/
def ClearOutcome.success : ClearOutcome → Bool
  | .busyErr => false
  | .noEntriesErr => false
  | .alreadyAtRoot => true
  | .cleared _ => true

/-- Embedding of the `clear` branch of `handleCommand`.  Note that the
request's `summarize` field is never read by the source — the branch
handles every `clear` the same way: busy sessions are refused, an empty
session is refused, a leaf already at the root entry answers
`alreadyAtRoot` without touching the branch, and otherwise
`rewindTo(firstEntryId)` runs and the response reports the target. -/
def handleClear (ctx : SessionCtx) (_cmd : ClearCmd) : ClearOutcome × SessionCtx :=
  if ¬ ctx.isIdle then (.busyErr, ctx)
  else
    match getFirstEntryId ctx.entries with
    | none => (.noEntriesErr, ctx)
    | some firstEntryId =>
      if ctx.leafId = firstEntryId then (.alreadyAtRoot, ctx)
      else (.cleared firstEntryId, { ctx with leafId := firstEntryId })

/-- Apply `handleClear` with the same command `n` times, keeping the
resulting context each time. -/
def clearIter (cmd : ClearCmd) : Nat → SessionCtx → SessionCtx
  | 0, ctx => ctx
  | n + 1, ctx => clearIter cmd n (handleClear ctx cmd).2

/-! ### The daemon `relay` command
(the `case "relay"` branch of daemon.js `handleDaemonCommand`, with
audit-log.ts `logAudit`) -/

/-- An inner session RPC response, as far as the relay path inspects it
(`response?.success` and `response?.error`). -/
structure RpcResp where
  success : Bool
  error : Option String
deriving DecidableEq, Repr

/-- The daemon's response to the relay request. -/
inductive RelayReply where
  /-- `success:true, data:{requestId, queued:true}` (fire-and-forget ack) -/
  | queued
  /-- `success:true, data:{requestId, response}` -/
  | withResponse (r : RpcResp)
  /-- `success:false, error:e` -/
  | failure (e : String)
deriving DecidableEq, Repr

/-- One line appended to audit.log by `logAudit`: we record the `peer`,
`action`, `data` (the target session id serialized inside it, when
present), `result` (`ok` as `true`) and `error` fields; the timestamp
carries no information for the claims. -/
structure AuditEntry where
  peer : String
  action : String
  data : Option String
  ok : Bool
  error : Option String
deriving DecidableEq, Repr

/-- A peer entry as the relay scan reads it: `sessions.has(target)`,
`connected`, and whether `peer.socket` is non-null. -/
structure PeerM where
  host : String
  connected : Bool
  hasSocket : Bool
  sessions : List String
deriving DecidableEq, Repr

/-- The asynchronous environment of one relay: the outcome of
`relayToLocalSocket` for a local target, of `targetPeer.socket.write` for
a remote one, and of awaiting the correlated `rpc_response` (an `error`
carries `String(err)`, e.g. a relay-timeout message). -/
structure RelayEnv where
  localHas : String → Bool
  peers : List PeerM
  localResult : Except String RpcResp
  writeOk : Except String Unit
  awaitResult : Except String RpcResp

/-- `socket.remoteAddress || "local"`. -/
def keyOf (remoteAddress : Option String) : String :=
  match remoteAddress with
  | some a => if a = "" then "local" else a
  | none => "local"

/-- `` `${rpcCommand?.type || "relay"}` `` for a present command type. -/
def actionOf (ctype : String) : String := if ctype = "" then "relay" else ctype

/-- `response?.success ? undefined : response?.error || undefined`. -/
def errOf (r : RpcResp) : Option String :=
  match r.error with
  | some e => if e = "" then none else some e
  | none => none

/-- The peer scan of the relay branch: iterate `remotePeers.values()` and
stop at the FIRST peer whose session table contains the target; return it
when connected, else just the `sessionFoundButDisconnected` flag. -/
def findTargetPeer (target : String) : List PeerM → Option PeerM × Bool
  | [] => (none, false)
  | p :: rest =>
    if target ∈ p.sessions then
      if p.connected then (some p, false) else (none, true)
    else findTargetPeer target rest

/-- `Session X not found`. -/
def notFoundMsg (target : String) : String := "Session " ++ target ++ " not found"

/-- `Session X is on a disconnected peer`. -/
def disconnectedMsg (target : String) : String :=
  "Session " ++ target ++ " is on a disconnected peer"

/-- Result of one relay request: the response sent to the requester, the
audit-log lines appended, and the updated rate-limiter state. -/
structure RelayOut where
  reply : RelayReply
  audits : List AuditEntry
  rl : RLState

/-- Embedding of the `case "relay"` branch of `handleDaemonCommand`.
Order of the source: rate-limit the requester key (refusal answers
`Rate limit exceeded` and writes one audit failure line with no target);
a target in `localSessions` is served over a fresh IPC connection (ack
first when fire-and-forget) — note no `logAudit` call exists on any local
path; otherwise the peer scan either fails with not-found /
disconnected-peer (again without audit) or forwards an `rpc` frame and
audits the outcome. -/
def handleRelayCase (now : Nat) (rl : RLState) (remoteAddress : Option String)
    (target ctype : String) (fireAndForget : Bool) (env : RelayEnv) : RelayOut :=
  let ratePeer := keyOf remoteAddress
  let rc := checkRateLimit ratePeer now rl
  if ¬ rc.1 then
    ⟨.failure "Rate limit exceeded",
     [⟨ratePeer, "relay", none, false, some "Rate limit exceeded"⟩], rc.2⟩
  else if env.localHas target then
    if fireAndForget then ⟨.queued, [], rc.2⟩
    else
      match env.localResult with
      | .ok r => ⟨.withResponse r, [], rc.2⟩
      | .error e => ⟨.failure e, [], rc.2⟩
  else
    match findTargetPeer target env.peers with
    | (some p, _) =>
      if ¬ p.hasSocket then ⟨.failure (notFoundMsg target), [], rc.2⟩
      else if fireAndForget then
        match env.writeOk with
        | .ok _ => ⟨.queued, [], rc.2⟩
        | .error e =>
          ⟨.failure e, [⟨ratePeer, actionOf ctype, some target, false, some e⟩], rc.2⟩
      else
        match env.writeOk with
        | .error e =>
          ⟨.failure e, [⟨ratePeer, actionOf ctype, some target, false, some e⟩], rc.2⟩
        | .ok _ =>
          match env.awaitResult with
          | .ok r =>
            ⟨.withResponse r,
             [⟨ratePeer, actionOf ctype, some target, r.success, errOf r⟩], rc.2⟩
          | .error e =>
            ⟨.failure e, [⟨ratePeer, actionOf ctype, some target, false, some e⟩], rc.2⟩
    | (none, foundButDisconnected) =>
      ⟨.failure (if foundButDisconnected then disconnectedMsg target else notFoundMsg target),
       [], rc.2⟩

/-! ### Peer disconnect handling
(the socket `close` handler installed by daemon.js `setupPeerSocket`,
and daemon.js `scheduleReconnect`) -/

/-- A daemon `PeerEntry` as the close handler and `scheduleReconnect`
read and write it.  `reconnectTimer` records a pending `setTimeout` delay
in milliseconds; `lastStatus` models the `_lastStatus` marker. -/
structure PeerEntry where
  host : String
  connected : Bool
  hasSocket : Bool
  sessions : List String
  reconnectTimer : Option Nat
  reconnectAttempts : Nat
  removed : Bool
  gaveUp : Bool
  lastStatus : Option String
deriving DecidableEq, Repr

/-- Events pushed to daemon subscribers (`pushEvent`). -/
inductive DEvent where
  | sessionRemoved (sessionId : String) (host : String) (isRemote : Bool)
  | peerDisconnected (host : String)
  | peerGaveUp (host : String)
deriving DecidableEq, Repr

/-- Result of running the `close` handler: the updated entry, the events
pushed, and whether the entry was deleted from `remotePeers`. -/
structure CloseOut where
  peer : PeerEntry
  events : List DEvent
  deletedFromTable : Bool
deriving DecidableEq, Repr

/-- Embedding of the socket `close` handler of `setupPeerSocket`
(daemon.js): mark the link down, push `session_removed` for every session
the peer advertised, push `peer_disconnected` once (only when the link was
up, the peer had not given up, and `_lastStatus` is not already
"disconnected"), then set `gaveUp` unconditionally, push `peer_gave_up`,
and drop the entry only when `removed` was set by `remove_peer`.
The handler never calls `scheduleReconnect` and never touches
`reconnectTimer`. -/
def onPeerSocketClose (p : PeerEntry) : CloseOut :=
  let wasConnected := p.connected
  let sessionEvs := p.sessions.map (fun sid => DEvent.sessionRemoved sid p.host true)
  let emitDisc := wasConnected ∧ p.gaveUp ≠ true ∧ p.lastStatus ≠ some "disconnected"
  let p1 : PeerEntry :=
    { p with
      connected := false
      hasSocket := false
      lastStatus := if emitDisc then some "disconnected" else p.lastStatus
      gaveUp := true }
  { peer := p1
    events := sessionEvs
      ++ (if emitDisc then [DEvent.peerDisconnected p.host] else [])
      ++ [DEvent.peerGaveUp p.host]
    deletedFromTable := p.removed }

/-- Embedding of daemon.js `scheduleReconnect(peer)` (present in the
source but never invoked by any code path): a removed or given-up peer is
ignored; after one prior attempt the peer is marked `gaveUp` and
`peer_gave_up` pushed; otherwise the attempt counter is bumped and a 3 s
timer armed. -/
def scheduleReconnect (p : PeerEntry) : PeerEntry × List DEvent :=
  if p.removed ∨ p.gaveUp then (p, [])
  else if p.reconnectAttempts ≥ 1 then
    ({ p with gaveUp := true, lastStatus := some "gaveUp" }, [DEvent.peerGaveUp p.host])
  else
    ({ p with reconnectAttempts := p.reconnectAttempts + 1, reconnectTimer := some 3000 }, [])

/-! ### Local session table and the `names/` store
(daemon.js `addLocalSession` / `removeLocalSession`, shared.js
`getSessionName` / `setSessionName` / `removeSessionName` /
`isSafeSessionId`) -/

/-- `sessionId.includes("..")`. -/
def hasDotDot : List Char → Bool
  | '.' :: '.' :: _ => true
  | _ :: rest => hasDotDot rest
  | [] => false

/-- Embedding of shared.js `isSafeSessionId`: nonempty, no `/`, no `\`,
no `..`. -/
def isSafeSessionId (sessionId : String) : Bool :=
  ¬ (sessionId.data = []) ∧ ¬ sessionId.data.contains '/' ∧
    ¬ sessionId.data.contains '\\' ∧ ¬ hasDotDot sessionId.data

/-- The daemon-side state the discovery claims touch: the `names/` name
files (`names` maps a session id to its persisted auto-name) and the
`localSessions` table (mapping a session id to the name the entry
carries; the endpoint path and aliases play no part in these claims). -/
structure NamingState where
  names : String → Option String
  table : String → Option String

/-- Embedding of shared.js `getSessionName`. -/
def getSessionName (st : NamingState) (sessionId : String) : Option String :=
  if isSafeSessionId sessionId then st.names sessionId else none

/-- Embedding of shared.js `setSessionName`. -/
def setSessionName (st : NamingState) (sessionId name : String) : NamingState :=
  if isSafeSessionId sessionId then
    { st with names := fun k => if k = sessionId then some name else st.names k }
  else st

/-- Embedding of shared.js `removeSessionName` (`unlink names/<id>`). -/
def removeSessionName (st : NamingState) (sessionId : String) : NamingState :=
  if isSafeSessionId sessionId then
    { st with names := fun k => if k = sessionId then none else st.names k }
  else st

/-- Embedding of daemon.js `removeLocalSession`: a session absent from the
table is ignored; otherwise the table entry is deleted and
`removeSessionName` unlinks the persisted auto-name file.  (The log line,
peer broadcast, subscriber event and auto-shutdown reset that follow do
not touch `names` or the table.) -/
def removeLocalSession (st : NamingState) (sessionId : String) : NamingState :=
  match st.table sessionId with
  | none => st
  | some _ =>
    removeSessionName
      { st with table := fun k => if k = sessionId then none else st.table k } sessionId

/-- Embedding of daemon.js `addLocalSession` for a socket file of session
`sessionId`: unsafe ids and already-tracked ids are ignored; `alive`
stands for the `verifySocketAlive` probe; a session with no persisted
name gets `fresh` (the value `generateWhimsicalName()` returned) and the
name is persisted with `setSessionName`; then the table entry is
inserted. -/
def addLocalSession (st : NamingState) (sessionId : String) (alive : Bool)
    (fresh : String) : NamingState :=
  if ¬ isSafeSessionId sessionId then st
  else
    match st.table sessionId with
    | some _ => st
    | none =>
      if ¬ alive then st
      else
        let nameAndSt :=
          match getSessionName st sessionId with
          | some n => (n, st)
          | none => (fresh, setSessionName st sessionId fresh)
        { nameAndSt.2 with
          table := fun k => if k = sessionId then some nameAndSt.1 else nameAndSt.2.table k }

/-! ### Auto-shutdown timer (daemon.js `resetAutoShutdown`) -/

/-- The auto-shutdown subsystem state: the armed `setTimeout` delay in
milliseconds, if any (`autoShutdownTimer`), and whether the daemon has
exited through the auto-shutdown path. -/
structure AutoShutdownState where
  timer : Option Int
  exited : Bool
deriving DecidableEq, Repr

/-- Embedding of daemon.js `resetAutoShutdown` with
`timeout = config.autoShutdownTimeout` (seconds, an arbitrary integer):
any armed timer is cleared; `timeoutMs = timeout * 1e3`; when
`timeoutMs <= 0` the function returns without arming, otherwise a fresh
timer is armed. -/
def resetAutoShutdown (timeout : Int) (st : AutoShutdownState) : AutoShutdownState :=
  let st1 := { st with timer := none }
  let timeoutMs := timeout * 1000
  if timeoutMs ≤ 0 then st1 else { st1 with timer := some timeoutMs }

/-- The timer callback of `resetAutoShutdown`: it can only run when a
timer is armed; with no local sessions and no connected peers the daemon
exits, otherwise it re-arms through `resetAutoShutdown`. -/
def fireAutoShutdown (timeout : Int) (noLocal noPeers : Bool) (st : AutoShutdownState) :
    AutoShutdownState :=
  match st.timer with
  | none => st
  | some _ =>
    if noLocal ∧ noPeers then { timer := none, exited := true }
    else resetAutoShutdown timeout { st with timer := none }

/-- The two kinds of step the auto-shutdown subsystem sees: any daemon
activity (each of which calls `resetAutoShutdown` — the only place a
timer is ever armed), and the timer firing while the daemon is idle or
not. -/
inductive DaemonTick where
  | activity
  | timerFire (noLocal noPeers : Bool)
deriving DecidableEq, Repr

/-- Run a sequence of ticks. -/
def runAutoShutdown (timeout : Int) : AutoShutdownState → List DaemonTick → AutoShutdownState
  | st, [] => st
  | st, t :: rest =>
    match t with
    | .activity => runAutoShutdown timeout (resetAutoShutdown timeout st) rest
    | .timerFire noLocal noPeers =>
      runAutoShutdown timeout (fireAutoShutdown timeout noLocal noPeers st) rest

/-- Bound used in the rate-limiter induction: how many more admissions the
fixed window `w` can see for `key` given the limiter state `s`. -/
def rlBound (s : RLState) (key : String) (w : Nat) : Nat :=
  match s key with
  | none => LIMIT
  | some e => if w = e.window then LIMIT - e.count else LIMIT

/-! ## Theorems -/

theorem lastColonSplit_eq_none {l : List Char} (h : ':' ∉ l) : lastColonSplit l = none := by
  induction l with
  | nil => rfl
  | cons c rest ih =>
    have hc : c ≠ ':' := fun hcc => h (hcc ▸ List.mem_cons_self c rest)
    have hr : lastColonSplit rest = none := ih (fun hm => h (List.mem_cons_of_mem c hm))
    simp [lastColonSplit, hr, hc]

/-- C6: the daemon picks the relay timeout by command kind — 15 s for
`get_message` and `clear`, 60 s for `get_summary`, 5 min for `send`, and
10 s for any other command (daemon.js `getRelayTimeout`). -/
theorem claim6_relay_timeout_by_kind :
    getRelayTimeout "get_message" = 15000 ∧ getRelayTimeout "clear" = 15000 ∧
    getRelayTimeout "get_summary" = 60000 ∧ getRelayTimeout "send" = 300000 ∧
    ∀ ctype : String, ctype ≠ "get_message" → ctype ≠ "clear" → ctype ≠ "get_summary" →
      ctype ≠ "send" → getRelayTimeout ctype = 10000 := by
  refine ⟨by decide, by decide, by decide, by decide, ?_⟩
  intro ctype h1 h2 h3 h4
  simp [getRelayTimeout, h1, h2, h3, h4]

theorem claim6_relay_timeout_by_kind_witness : getRelayTimeout "abort" = 10000 :=
  claim6_relay_timeout_by_kind.2.2.2.2 "abort" (by decide) (by decide) (by decide) (by decide)

/-- C7 counterexample: the claim says `host:0` is treated as a bare host
with the default port, i.e. parses to `("host:0", 7433)`.  In the source
the guard `String(parseInt("0", 10)) === "0"` holds, so `host:0` parses
to host `"host"` with port `0`. -/
theorem claim7_counterexample :
    parsePeerAddress "host:0" = ("host", 0) ∧
    parsePeerAddress "host:0" ≠ ("host:0", DEFAULT_PORT) := by
  decide

/-- C7 (amended): a peer string with no colon is the whole string as host
with the default port 7433; a string whose trailing segment after the
last colon fails the canonical-numeral guard (in particular a non-numeric
segment) is likewise a bare host with the default port; but any segment
that renders back to itself through `String(parseInt(...))` passes the
guard — so `host:0` parses as host `"host"` with port `0` and `host:-1`
as host `"host"` with port `-1`, neither as a bare host. -/
theorem claim7_parse_peer_address :
    (∀ peer : String, ':' ∉ peer.data → parsePeerAddress peer = (peer, DEFAULT_PORT)) ∧
    (∀ (peer : String) (b a : List Char), lastColonSplit peer.data = some (b, a) →
      canonInt a = none → parsePeerAddress peer = (peer, DEFAULT_PORT)) ∧
    parsePeerAddress "host:0" = ("host", 0) ∧
    parsePeerAddress "host:-1" = ("host", -1) := by
  refine ⟨?_, ?_, by decide, by decide⟩
  · intro peer h
    simp [parsePeerAddress, lastColonSplit_eq_none h]
  · intro peer b a h1 h2
    simp [parsePeerAddress, h1, h2]

theorem claim7_parse_peer_address_witness :
    parsePeerAddress "myhost" = ("myhost", DEFAULT_PORT) ∧
    parsePeerAddress "my:host" = ("my:host", DEFAULT_PORT) := by
  refine ⟨claim7_parse_peer_address.1 "myhost" (by decide), ?_⟩
  exact claim7_parse_peer_address.2.1 "my:host" ['m', 'y'] ['h', 'o', 's', 't']
    (by decide) (by decide)

/-- C4 counterexample: the claim says a `clear` with `summarize=true` is
rejected as unsupported (`success:false`).  On an idle session whose leaf
is not the root, the source handles `{type:"clear", summarize:true}` by
rewinding to the root and answering `success:true` — the `summarize`
field is never read. -/
theorem claim4_counterexample :
    handleClear ⟨true, [⟨"root", none⟩, ⟨"leaf", some "root"⟩], "leaf"⟩ ⟨true⟩
      = (.cleared "root", ⟨true, [⟨"root", none⟩, ⟨"leaf", some "root"⟩], "root"⟩) ∧
    (ClearOutcome.cleared "root").success = true := by
  decide

/-- C4 (amended): the session endpoint's `clear` branch ignores the
`summarize` flag entirely — a request with `summarize=true` is handled
identically to `summarize=false` and is never rejected as unsupported; in
particular, on an idle session with entries whose leaf is not the root it
rewinds the branch to the root entry and succeeds. -/
theorem claim4_clear_ignores_summarize :
    (∀ (ctx : SessionCtx) (s1 s2 : Bool), handleClear ctx ⟨s1⟩ = handleClear ctx ⟨s2⟩) ∧
    (∀ (ctx : SessionCtx) (rootId : String), ctx.isIdle = true →
      getFirstEntryId ctx.entries = some rootId → ctx.leafId ≠ rootId →
      handleClear ctx ⟨true⟩ = (.cleared rootId, { ctx with leafId := rootId })) := by
  constructor
  · intro ctx s1 s2
    rfl
  · intro ctx rootId h1 h2 h3
    simp [handleClear, h1, h2, h3]

theorem claim4_clear_ignores_summarize_witness :
    handleClear ⟨true, [⟨"r", none⟩], "x"⟩ ⟨true⟩ = handleClear ⟨true, [⟨"r", none⟩], "x"⟩ ⟨false⟩ ∧
    handleClear ⟨true, [⟨"r", none⟩], "x"⟩ ⟨true⟩
      = (.cleared "r", ⟨true, [⟨"r", none⟩], "r"⟩) :=
  ⟨claim4_clear_ignores_summarize.1 ⟨true, [⟨"r", none⟩], "x"⟩ true false,
   claim4_clear_ignores_summarize.2 ⟨true, [⟨"r", none⟩], "x"⟩ "r" rfl (by decide) (by decide)⟩

/-- C8: once an idle session's branch leaf is the root entry, `clear`
answers `success:true` with `alreadyAtRoot` and leaves the context
untouched, and any number of further `clear` calls leave it unchanged. -/
theorem claim8_clear_idempotent_at_root :
    ∀ (ctx : SessionCtx) (cmd : ClearCmd) (rootId : String),
      ctx.isIdle = true → getFirstEntryId ctx.entries = some rootId → ctx.leafId = rootId →
      handleClear ctx cmd = (.alreadyAtRoot, ctx) ∧ ∀ n, clearIter cmd n ctx = ctx := by
  intro ctx cmd rootId h1 h2 h3
  have hstep : handleClear ctx cmd = (.alreadyAtRoot, ctx) := by
    simp [handleClear, h1, h2, h3]
  refine ⟨hstep, ?_⟩
  intro n
  induction n with
  | zero => rfl
  | succ m ih =>
    calc clearIter cmd (m + 1) ctx = clearIter cmd m (handleClear ctx cmd).2 := rfl
    _ = clearIter cmd m ctx := by rw [hstep]
    _ = ctx := ih

theorem claim8_clear_idempotent_at_root_witness :
    handleClear ⟨true, [⟨"root", none⟩, ⟨"a", some "root"⟩], "root"⟩ ⟨false⟩
      = (.alreadyAtRoot, ⟨true, [⟨"root", none⟩, ⟨"a", some "root"⟩], "root"⟩) ∧
    clearIter ⟨false⟩ 3 ⟨true, [⟨"root", none⟩, ⟨"a", some "root"⟩], "root"⟩
      = ⟨true, [⟨"root", none⟩, ⟨"a", some "root"⟩], "root"⟩ :=
  ⟨(claim8_clear_idempotent_at_root _ ⟨false⟩ "root" rfl (by decide) rfl).1,
   (claim8_clear_idempotent_at_root _ ⟨false⟩ "root" rfl (by decide) rfl).2 3⟩

/-- C9: removing a tracked local session deletes its table entry and its
persisted `names/<sessionId>` auto-name file, so a later rediscovery of
the same endpoint takes the generate-and-persist branch and is assigned
the fresh `generateWhimsicalName()` output rather than the previous
name. -/
theorem claim9_remove_deletes_persisted_name :
    ∀ (st : NamingState) (sessionId fresh : String),
      isSafeSessionId sessionId = true → st.table sessionId ≠ none →
      (removeLocalSession st sessionId).names sessionId = none ∧
      (removeLocalSession st sessionId).table sessionId = none ∧
      (addLocalSession (removeLocalSession st sessionId) sessionId true fresh).names sessionId
        = some fresh ∧
      (addLocalSession (removeLocalSession st sessionId) sessionId true fresh).table sessionId
        = some fresh := by
  intro st sessionId fresh hsafe htab
  obtain ⟨nm, hnm⟩ : ∃ nm, st.table sessionId = some nm := by
    cases h : st.table sessionId with
    | none => exact absurd h htab
    | some v => exact ⟨v, rfl⟩
  have hrem : removeLocalSession st sessionId =
      { names := fun k => if k = sessionId then none else st.names k
        table := fun k => if k = sessionId then none else st.table k } := by
    simp [removeLocalSession, hnm, removeSessionName, hsafe]
  refine ⟨by simp [hrem], by simp [hrem], ?_, ?_⟩ <;>
    simp [hrem, addLocalSession, hsafe, getSessionName, setSessionName]

theorem claim9_remove_deletes_persisted_name_witness :
    (removeLocalSession
        ⟨fun k => if k = "s1" then some "amber-fox" else none,
         fun k => if k = "s1" then some "amber-fox" else none⟩ "s1").names "s1" = none ∧
    (removeLocalSession
        ⟨fun k => if k = "s1" then some "amber-fox" else none,
         fun k => if k = "s1" then some "amber-fox" else none⟩ "s1").table "s1" = none ∧
    (addLocalSession (removeLocalSession
        ⟨fun k => if k = "s1" then some "amber-fox" else none,
         fun k => if k = "s1" then some "amber-fox" else none⟩ "s1") "s1" true
        "misty-owl").names "s1" = some "misty-owl" ∧
    (addLocalSession (removeLocalSession
        ⟨fun k => if k = "s1" then some "amber-fox" else none,
         fun k => if k = "s1" then some "amber-fox" else none⟩ "s1") "s1" true
        "misty-owl").table "s1" = some "misty-owl" :=
  claim9_remove_deletes_persisted_name
    ⟨fun k => if k = "s1" then some "amber-fox" else none,
     fun k => if k = "s1" then some "amber-fox" else none⟩ "s1" "misty-owl"
    (by decide) (by decide)

/-- C10: with `config.autoShutdownTimeout` zero or negative,
`resetAutoShutdown` clears any timer and returns before arming a new one,
so across any sequence of daemon activity and timer events the shutdown
timer stays unarmed and the daemon never exits through the auto-shutdown
path — regardless of how long it sits with no local sessions and no
connected peers. -/
theorem claim10_nonpositive_timeout_never_exits :
    ∀ timeout : Int, timeout ≤ 0 →
      ∀ ticks : List DaemonTick,
        runAutoShutdown timeout ⟨none, false⟩ ticks = ⟨none, false⟩ := by
  intro timeout h ticks
  have hms : timeout * 1000 ≤ 0 := by
    have := mul_le_mul_of_nonneg_right h (show (0 : Int) ≤ 1000 by norm_num)
    simpa using this
  have hreset : resetAutoShutdown timeout ⟨none, false⟩ = ⟨none, false⟩ := by
    simp [resetAutoShutdown, hms]
  induction ticks with
  | nil => rfl
  | cons t rest ih =>
    cases t with
    | activity =>
      show runAutoShutdown timeout (resetAutoShutdown timeout ⟨none, false⟩) rest = _
      rw [hreset]
      exact ih
    | timerFire noLocal noPeers =>
      show runAutoShutdown timeout (fireAutoShutdown timeout noLocal noPeers ⟨none, false⟩) rest = _
      exact ih

theorem claim10_nonpositive_timeout_never_exits_witness :
    runAutoShutdown (-5) ⟨none, false⟩
      [.activity, .timerFire true true, .activity, .timerFire true true] = ⟨none, false⟩ :=
  claim10_nonpositive_timeout_never_exits (-5) (by decide)
    [.activity, .timerFire true true, .activity, .timerFire true true]

/-- C2 counterexample: the claim says that when a peer socket closes
(peer not removed) the daemon schedules exactly one reconnect attempt
after ~3 s, and marks the peer `gaveUp` only if that attempt also fails.
Running the source's `close` handler on a connected, non-removed peer
shows the peer is marked `gaveUp` immediately, `peer_gave_up` is pushed
in the same handler, and no reconnect timer is armed
(`scheduleReconnect` is never invoked). -/
theorem claim2_counterexample :
    (onPeerSocketClose ⟨"peerA", true, true, ["s2"], none, 0, false, false, none⟩).peer.gaveUp
      = true ∧
    (onPeerSocketClose ⟨"peerA", true, true, ["s2"], none, 0, false, false, none⟩).peer.reconnectTimer
      = none ∧
    (onPeerSocketClose ⟨"peerA", true, true, ["s2"], none, 0, false, false, none⟩).events
      = [.sessionRemoved "s2" "peerA" true, .peerDisconnected "peerA", .peerGaveUp "peerA"] := by
  decide

/-- C2 (amended): when a peer TCP socket closes and the peer was not
removed via `remove_peer`, the daemon schedules no reconnect attempt at
all: the close handler marks the peer `gaveUp` immediately, leaves the
reconnect timer exactly as it was, ends its event batch with
`peer_gave_up`, and keeps the entry in the peer table; `peer_disconnected`
is pushed exactly when the link was up, the peer had not already given
up, and its status marker is not already "disconnected". -/
theorem claim2_close_gives_up_without_reconnect :
    ∀ p : PeerEntry, p.removed = false →
      (onPeerSocketClose p).peer.gaveUp = true ∧
      (onPeerSocketClose p).peer.reconnectTimer = p.reconnectTimer ∧
      (onPeerSocketClose p).events.getLast? = some (.peerGaveUp p.host) ∧
      (onPeerSocketClose p).deletedFromTable = false ∧
      ((DEvent.peerDisconnected p.host ∈ (onPeerSocketClose p).events) ↔
        (p.connected = true ∧ p.gaveUp ≠ true ∧ p.lastStatus ≠ some "disconnected")) := by
  intro p hrem
  refine ⟨rfl, rfl, ?_, by simp [onPeerSocketClose, hrem], ?_⟩
  · show (_ ++ _ ++ [DEvent.peerGaveUp p.host]).getLast? = _
    rw [List.getLast?_concat]
  · show DEvent.peerDisconnected p.host ∈ _ ++ _ ++ [DEvent.peerGaveUp p.host] ↔ _
    constructor
    · intro hmem
      rcases List.mem_append.mp hmem with hmem | hlast
      · rcases List.mem_append.mp hmem with hses | hdis
        · exact absurd (List.mem_map.mp hses) (by rintro ⟨sid, -, h⟩; cases h)
        · by_cases hc : p.connected = true ∧ p.gaveUp ≠ true ∧ p.lastStatus ≠ some "disconnected"
          · exact hc
          · simp [hc] at hdis
            exact ⟨hdis.1, by simp [hdis.2.1], hdis.2.2⟩
      · simp at hlast
    · intro hc
      refine List.mem_append.mpr (Or.inl (List.mem_append.mpr (Or.inr ?_)))
      simp [hc]

theorem claim2_close_gives_up_without_reconnect_witness :
    (onPeerSocketClose ⟨"peerB", false, false, [], some 3000, 1, false, true,
        some "disconnected"⟩).peer.gaveUp = true ∧
    (onPeerSocketClose ⟨"peerB", false, false, [], some 3000, 1, false, true,
        some "disconnected"⟩).peer.reconnectTimer = some 3000 ∧
    (onPeerSocketClose ⟨"peerB", false, false, [], some 3000, 1, false, true,
        some "disconnected"⟩).events.getLast? = some (.peerGaveUp "peerB") ∧
    (onPeerSocketClose ⟨"peerB", false, false, [], some 3000, 1, false, true,
        some "disconnected"⟩).deletedFromTable = false ∧
    ((DEvent.peerDisconnected "peerB" ∈ (onPeerSocketClose ⟨"peerB", false, false, [], some 3000,
        1, false, true, some "disconnected"⟩).events) ↔
      ((false = true) ∧ (true ≠ true) ∧ (some "disconnected" ≠ some "disconnected"))) :=
  claim2_close_gives_up_without_reconnect
    ⟨"peerB", false, false, [], some 3000, 1, false, true, some "disconnected"⟩ rfl

/-- C5: the claim (and the repository README's "Audit logging for all
relay actions") requires every non-fireAndForget relay to append one
audit line.  Evaluating the relay branch at the failing input — a
non-fireAndForget relay from a local client to a locally registered
session that is served successfully — appends no audit line at all: the
local-target path of `handleDaemonCommand` contains no `logAudit` call.
The same holds when the local IPC hop fails. -/
theorem claim5_local_relay_writes_no_audit :
    (handleRelayCase 1000 rlInit none "s1" "get_message" false
      ⟨fun t => t == "s1", [], .ok ⟨true, none⟩, .ok (), .ok ⟨true, none⟩⟩).audits = [] ∧
    (handleRelayCase 1000 rlInit none "s1" "get_message" false
      ⟨fun t => t == "s1", [], .ok ⟨true, none⟩, .ok (), .ok ⟨true, none⟩⟩).reply
      = .withResponse ⟨true, none⟩ ∧
    (handleRelayCase 1000 rlInit none "s1" "get_message" false
      ⟨fun t => t == "s1", [], .error "write EPIPE", .ok (), .ok ⟨true, none⟩⟩).audits = [] := by
  decide

theorem splitNl_no_nl {l : List Char} (h : '\n' ∉ l) : splitNl l = [l] := by
  induction l with
  | nil => rfl
  | cons c rest ih =>
    have hc : c ≠ '\n' := fun hcc => h (hcc ▸ List.mem_cons_self c rest)
    have hr := ih (fun hm => h (List.mem_cons_of_mem c hm))
    simp [splitNl, hc, hr]

theorem splitNl_append_cons {l r : List Char} (h : '\n' ∉ l) :
    splitNl (l ++ '\n' :: r) = l :: splitNl r := by
  induction l with
  | nil => simp [splitNl]
  | cons c rest ih =>
    have hc : c ≠ '\n' := fun hcc => h (hcc ▸ List.mem_cons_self c rest)
    have hr := ih (fun hm => h (List.mem_cons_of_mem c hm))
    simp [splitNl, hc, hr]

theorem dropWhile_eq_self_of_false {p : Char → Bool} {l : List Char}
    (h : ∀ c ∈ l, p c = false) : l.dropWhile p = l := by
  cases l with
  | nil => rfl
  | cons c rest => simp [List.dropWhile, h c (List.mem_cons_self c rest)]

theorem jsTrim_of_no_ws {l : List Char} (h : ∀ c ∈ l, isJsWs c = false) : jsTrim l = l := by
  unfold jsTrim
  rw [dropWhile_eq_self_of_false h,
    dropWhile_eq_self_of_false (fun c hc => h c (List.mem_reverse.mp hc)),
    List.reverse_reverse]

theorem byteLen_replicate_a (n : Nat) : byteLen (List.replicate n 'a') = n := by
  simp [byteLen, List.map_replicate, List.sum_replicate, smul_eq_mul,
    show csize 'a' = 1 from rfl]

theorem nl_not_mem_replicate_a (n : Nat) : '\n' ∉ List.replicate n 'a' := by
  simp [List.mem_replicate]

theorem jsTrim_replicate_a (n : Nat) : jsTrim (List.replicate n 'a') = List.replicate n 'a' :=
  jsTrim_of_no_ws (fun c hc => by rw [List.eq_of_mem_replicate hc]; rfl)

theorem processLines_cons_empty {l : List Char} {rest : List (List Char)} (h : jsTrim l = []) :
    processLines (l :: rest) = processLines rest := by
  simp [processLines, h]

theorem processLines_cons_oversize {l : List Char} {rest : List (List Char)}
    (h1 : jsTrim l ≠ []) (h2 : checkMaxMsgSize (jsTrim l) = false) :
    processLines (l :: rest) = (1, true, []) := by
  simp [processLines, h1, h2]

theorem processLines_cons_ok {l : List Char} {rest : List (List Char)}
    (h1 : jsTrim l ≠ []) (h2 : checkMaxMsgSize (jsTrim l) = true) :
    processLines (l :: rest)
      = ((processLines rest).1, (processLines rest).2.1, jsTrim l :: (processLines rest).2.2) := by
  simp [processLines, h1, h2]

theorem processLines_oversize :
    ∀ lines : List (List Char), (∃ l ∈ lines, checkMaxMsgSize (jsTrim l) = false) →
      (processLines lines).1 = 1 ∧ (processLines lines).2.1 = true := by
  intro lines
  induction lines with
  | nil => rintro ⟨l, hl, -⟩; cases hl
  | cons l rest ih =>
    rintro ⟨w, hw, hbad⟩
    by_cases ht : jsTrim l = []
    · have hwr : w ∈ rest := by
        rcases List.mem_cons.mp hw with rfl | hm
        · rw [ht] at hbad; cases hbad
        · exact hm
      rw [processLines_cons_empty ht]
      exact ih ⟨w, hwr, hbad⟩
    · by_cases hchk : checkMaxMsgSize (jsTrim l) = true
      · have hwr : w ∈ rest := by
          rcases List.mem_cons.mp hw with rfl | hm
          · rw [hchk] at hbad; cases hbad
          · exact hm
        rw [processLines_cons_ok ht hchk]
        exact ih ⟨w, hwr, hbad⟩
      · have hbadl : checkMaxMsgSize (jsTrim l) = false := by
          cases hcc : checkMaxMsgSize (jsTrim l) with
          | false => rfl
          | true => exact absurd hcc hchk
        rw [processLines_cons_oversize ht hbadl]
        exact ⟨rfl, rfl⟩

theorem checkMaxMsgSize_true_of {l : List Char} (h : byteLen l ≤ MAX_MSG_BYTES) :
    checkMaxMsgSize l = true :=
  decide_eq_true h

theorem checkMaxMsgSize_false_of {l : List Char} (h : MAX_MSG_BYTES < byteLen l) :
    checkMaxMsgSize l = false :=
  decide_eq_false (by omega)

theorem replicate_a_ne_nil {n : Nat} (h : 0 < n) : List.replicate n 'a' ≠ [] := by
  intro hh
  have hlen := congrArg List.length hh
  rw [List.length_replicate, List.length_nil] at hlen
  omega

theorem splitNl_append_singleton {l : List Char} (h : '\n' ∉ l) :
    splitNl (l ++ ['\n']) = [l, []] := by
  have h0 := splitNl_append_cons (r := ([] : List Char)) h
  rw [show splitNl ([] : List Char) = [[]] from rfl] at h0
  exact h0

theorem endpoint_processes_line (msg : List Char) (h1 : '\n' ∉ msg) (h2 : jsTrim msg ≠ []) :
    endpointDataStep [] (msg ++ ['\n']) = ([], [jsTrim msg]) := by
  have hs : splitNl (msg ++ ['\n']) = [msg, []] := splitNl_append_singleton h1
  unfold endpointDataStep
  rw [List.nil_append, hs]
  simp [h2]

theorem daemon_accepts_max_line (msg : List Char) (h1 : '\n' ∉ msg) (h2 : jsTrim msg = msg)
    (h3 : byteLen msg = MAX_MSG_BYTES) : daemonRun [] [msg, ['\n']] = (0, false, [msg]) := by
  have hne : msg ≠ [] := by
    intro h
    rw [h] at h3
    have h0 : (0 : Nat) = MAX_MSG_BYTES := h3
    norm_num [MAX_MSG_BYTES] at h0
  have hchk : checkMaxMsgSize msg = true := checkMaxMsgSize_true_of (le_of_eq h3)
  have hstep1 : daemonDataStep [] msg = ⟨msg, 0, false, []⟩ := by
    have hsp : splitNl msg = [msg] := splitNl_no_nl h1
    unfold daemonDataStep
    rw [List.nil_append, hsp]
    simp [hchk, processLines]
  have hstep2 : daemonDataStep msg ['\n'] = ⟨[], 0, false, [msg]⟩ := by
    have hc2 : checkMaxMsgSize ['\n'] = true := by decide
    have hsp : splitNl (msg ++ ['\n']) = [msg, []] := splitNl_append_singleton h1
    have hpl : processLines [msg] = (0, false, [msg]) := by
      have h2ne : jsTrim msg ≠ [] := by rw [h2]; exact hne
      have h2chk : checkMaxMsgSize (jsTrim msg) = true := by rw [h2]; exact hchk
      rw [processLines_cons_ok h2ne h2chk]
      simp [processLines, h2]
    unfold daemonDataStep
    rw [hsp]
    simp [hc2, hpl]
  simp [daemonRun, hstep1, hstep2]

/-- C3 (amended): on the daemon's two size-checked listeners (the
`daemon.sock` IPC listener and the peer TCP listener), an oversized
chunk, or a completed line whose trimmed content exceeds 8,192 bytes, is
answered with exactly one size error and the connection is destroyed,
while a frame of exactly 8,192 bytes — delivered without any single
chunk exceeding the cap — is accepted and processed; the session
endpoint listener, by contrast, performs no size check at all and hands
every completed line on for processing. -/
theorem claim3_frame_size_limits :
    (∀ buf chunk : List Char, checkMaxMsgSize chunk = false →
        daemonDataStep buf chunk = ⟨buf, 1, true, []⟩) ∧
    (∀ buf chunk : List Char, checkMaxMsgSize chunk = true →
        (∃ l ∈ (splitNl (buf ++ chunk)).dropLast, checkMaxMsgSize (jsTrim l) = false) →
        (daemonDataStep buf chunk).errors = 1 ∧ (daemonDataStep buf chunk).closed = true) ∧
    (∀ msg : List Char, '\n' ∉ msg → jsTrim msg = msg → byteLen msg = MAX_MSG_BYTES →
        daemonRun [] [msg, ['\n']] = (0, false, [msg])) ∧
    (∀ msg : List Char, '\n' ∉ msg → jsTrim msg ≠ [] →
        endpointDataStep [] (msg ++ ['\n']) = ([], [jsTrim msg])) := by
  refine ⟨?_, ?_, daemon_accepts_max_line, endpoint_processes_line⟩
  · intro buf chunk h
    simp [daemonDataStep, h]
  · intro buf chunk h hex
    have := processLines_oversize _ hex
    simpa [daemonDataStep, h] using this

/-- C3 counterexample: the claim says every listener — including the
session endpoint's IPC listener — answers a frame larger than 8,192
bytes with one size error and closes the connection.  Feeding the
endpoint listener a complete 8,193-byte line produces no error frame, no
close, and the line is handed on for processing. -/
theorem claim3_counterexample :
    endpointDataStep [] (List.replicate 8193 'a' ++ ['\n'])
      = ([], [List.replicate 8193 'a']) ∧
    checkMaxMsgSize (List.replicate 8193 'a') = false := by
  have htr := jsTrim_replicate_a 8193
  constructor
  · have hne : jsTrim (List.replicate 8193 'a') ≠ [] := by
      rw [htr]; exact replicate_a_ne_nil (by norm_num)
    have := endpoint_processes_line _ (nl_not_mem_replicate_a 8193) hne
    rwa [htr] at this
  · exact checkMaxMsgSize_false_of (by rw [byteLen_replicate_a]; norm_num [MAX_MSG_BYTES])

theorem claim3_frame_size_limits_witness :
    daemonDataStep [] (List.replicate 8193 'a') = ⟨[], 1, true, []⟩ ∧
    (daemonDataStep (List.replicate 8193 'a') ['\n']).errors = 1 ∧
    (daemonDataStep (List.replicate 8193 'a') ['\n']).closed = true ∧
    daemonRun [] [List.replicate 8192 'a', ['\n']] = (0, false, [List.replicate 8192 'a']) ∧
    endpointDataStep [] (List.replicate 8193 'a' ++ ['\n'])
      = ([], [List.replicate 8193 'a']) := by
  have hbig : checkMaxMsgSize (List.replicate 8193 'a') = false :=
    checkMaxMsgSize_false_of (by rw [byteLen_replicate_a]; norm_num [MAX_MSG_BYTES])
  have htr13 := jsTrim_replicate_a 8193
  have hmem : ∃ l ∈ (splitNl (List.replicate 8193 'a' ++ ['\n'])).dropLast,
      checkMaxMsgSize (jsTrim l) = false := by
    have hsp : splitNl (List.replicate 8193 'a' ++ ['\n']) = [List.replicate 8193 'a', []] :=
      splitNl_append_singleton (nl_not_mem_replicate_a 8193)
    refine ⟨List.replicate 8193 'a', ?_, by rw [htr13]; exact hbig⟩
    rw [hsp]
    exact List.mem_cons_self _ _
  have hover := claim3_frame_size_limits.2.1 (List.replicate 8193 'a') ['\n'] (by decide) hmem
  refine ⟨claim3_frame_size_limits.1 [] (List.replicate 8193 'a') hbig,
    hover.1, hover.2,
    claim3_frame_size_limits.2.2.1 (List.replicate 8192 'a') (nl_not_mem_replicate_a 8192)
      (jsTrim_replicate_a 8192) (byteLen_replicate_a 8192), ?_⟩
  have := claim3_frame_size_limits.2.2.2 (List.replicate 8193 'a')
    (nl_not_mem_replicate_a 8193) (by rw [htr13]; exact replicate_a_ne_nil (by norm_num))
  rwa [htr13] at this

theorem rlSet_self (s : RLState) (k : String) (v : RLEntry) : rlSet s k v k = some v := by
  simp [rlSet]

theorem rlSet_other (s : RLState) (k : String) (v : RLEntry) {k' : String} (h : k' ≠ k) :
    rlSet s k v k' = s k' := by
  simp [rlSet, h]

theorem checkRateLimit_none {k : String} {t : Nat} {s : RLState} (h : s k = none) :
    checkRateLimit k t s = (true, rlSet s k ⟨1, t / WINDOW_MS⟩) := by
  simp [checkRateLimit, h]

theorem checkRateLimit_newWindow {k : String} {t : Nat} {s : RLState} {e : RLEntry}
    (h : s k = some e) (hw : e.window ≠ t / WINDOW_MS) :
    checkRateLimit k t s = (true, rlSet s k ⟨1, t / WINDOW_MS⟩) := by
  simp [checkRateLimit, h, hw]

theorem checkRateLimit_incr {k : String} {t : Nat} {s : RLState} {e : RLEntry}
    (h : s k = some e) (hw : e.window = t / WINDOW_MS) (hc : e.count < LIMIT) :
    checkRateLimit k t s = (true, rlSet s k ⟨e.count + 1, e.window⟩) := by
  simp [checkRateLimit, h, hw, hc]

theorem checkRateLimit_reject {k : String} {t : Nat} {s : RLState} {e : RLEntry}
    (h : s k = some e) (hw : e.window = t / WINDOW_MS) (hc : ¬ e.count < LIMIT) :
    checkRateLimit k t s = (false, s) := by
  simp [checkRateLimit, h, hw, hc]

theorem countAdmitted_cons (key : String) (w : Nat) (s : RLState) (k : String) (t : Nat)
    (rest : List (String × Nat)) :
    countAdmitted key w s ((k, t) :: rest)
      = (if k = key ∧ t / WINDOW_MS = w ∧ (checkRateLimit k t s).1 = true then 1 else 0)
        + countAdmitted key w (checkRateLimit k t s).2 rest := rfl

theorem rlBound_none {s : RLState} {key : String} {w : Nat} (h : s key = none) :
    rlBound s key w = LIMIT := by
  simp [rlBound, h]

theorem rlBound_some_eq {s : RLState} {key : String} {w : Nat} {e : RLEntry}
    (h : s key = some e) (hw : w = e.window) : rlBound s key w = LIMIT - e.count := by
  simp [rlBound, h, hw]

theorem rlBound_some_ne {s : RLState} {key : String} {w : Nat} {e : RLEntry}
    (h : s key = some e) (hw : w ≠ e.window) : rlBound s key w = LIMIT := by
  simp [rlBound, h, hw]

theorem rlBound_rlSet_self_eq {s : RLState} (k : String) (c wv w : Nat) (hw : w = wv) :
    rlBound (rlSet s k ⟨c, wv⟩) k w = LIMIT - c := by
  simp [rlBound, rlSet_self, hw]

theorem rlBound_rlSet_self_ne {s : RLState} (k : String) (c wv w : Nat) (hw : w ≠ wv) :
    rlBound (rlSet s k ⟨c, wv⟩) k w = LIMIT := by
  simp [rlBound, rlSet_self, hw]

theorem rlBound_rlSet_other {s : RLState} {k key : String} (v : RLEntry) (w : Nat)
    (h : key ≠ k) : rlBound (rlSet s k v) key w = rlBound s key w := by
  simp [rlBound, rlSet_other _ _ _ h]

theorem countAdmitted_cons_pass {k : String} {t : Nat} {s s' : RLState}
    (h : checkRateLimit k t s = (true, s')) (key : String) (w : Nat)
    (rest : List (String × Nat)) :
    countAdmitted key w s ((k, t) :: rest)
      = (if k = key ∧ t / WINDOW_MS = w then 1 else 0) + countAdmitted key w s' rest := by
  rw [countAdmitted_cons, h]
  simp

theorem countAdmitted_cons_reject {k : String} {t : Nat} {s s' : RLState}
    (h : checkRateLimit k t s = (false, s')) (key : String) (w : Nat)
    (rest : List (String × Nat)) :
    countAdmitted key w s ((k, t) :: rest) = countAdmitted key w s' rest := by
  rw [countAdmitted_cons, h]
  simp

theorem countAdmitted_eq_zero (key : String) (w : Nat) :
    ∀ (reqs : List (String × Nat)) (s : RLState),
      (∀ r ∈ reqs, r.1 = key → w < r.2 / WINDOW_MS) →
      countAdmitted key w s reqs = 0 := by
  intro reqs
  induction reqs with
  | nil => intro s _; rfl
  | cons r rest ih =>
    intro s h
    obtain ⟨k, t⟩ := r
    have hhead : ¬ (k = key ∧ t / WINDOW_MS = w ∧ (checkRateLimit k t s).1 = true) := by
      rintro ⟨rfl, hw, -⟩
      have hlt : w < t / WINDOW_MS := h (k, t) (List.mem_cons_self _ _) rfl
      omega
    rw [countAdmitted_cons, if_neg hhead,
      ih _ (fun r hr hk => h r (List.mem_cons_of_mem _ hr) hk)]

theorem countAdmitted_le_rlBound :
    ∀ (reqs : List (String × Nat)) (s : RLState),
      List.Pairwise (fun a b => a.2 ≤ b.2) reqs →
      (∀ k e, s k = some e → ∀ r ∈ reqs, r.1 = k → e.window ≤ r.2 / WINDOW_MS) →
      ∀ (key : String) (w : Nat), countAdmitted key w s reqs ≤ rlBound s key w := by
  intro reqs
  induction reqs with
  | nil => intro s _ _ key w; exact Nat.zero_le _
  | cons r rest ih =>
    intro s hmono hinv key w
    obtain ⟨k, t⟩ := r
    rw [List.pairwise_cons] at hmono
    obtain ⟨hle, hmrest⟩ := hmono
    have hdiv : ∀ r ∈ rest, t / WINDOW_MS ≤ r.2 / WINDOW_MS :=
      fun r hr => Nat.div_le_div_right (hle r hr)
    have hL : LIMIT = 30 := rfl
    have hinvRest : ∀ k' e', s k' = some e' → ∀ r ∈ rest, r.1 = k' →
        e'.window ≤ r.2 / WINDOW_MS :=
      fun k' e' h' r hr hk => hinv k' e' h' r (List.mem_cons_of_mem _ hr) hk
    have hinvSet : ∀ wv : Nat, (∀ r ∈ rest, wv ≤ r.2 / WINDOW_MS) →
        ∀ k' e', rlSet s k ⟨1, wv⟩ k' = some e' → ∀ r ∈ rest, r.1 = k' →
          e'.window ≤ r.2 / WINDOW_MS := by
      intro wv hwv k' e' h' r hr hk
      by_cases hkk : k' = k
      · subst hkk
        rw [rlSet_self] at h'
        cases h'
        exact hwv r hr
      · rw [rlSet_other _ _ _ hkk] at h'
        exact hinvRest k' e' h' r hr hk
    rcases hA : s k with _ | e
    · -- no entry for this key yet: admit and reset to (1, current window)
      rw [countAdmitted_cons_pass (checkRateLimit_none hA)]
      have htail := ih (rlSet s k ⟨1, t / WINDOW_MS⟩) hmrest (hinvSet _ hdiv) key w
      by_cases hk : k = key
      · subst hk
        rw [rlBound_none hA]
        by_cases hw : t / WINDOW_MS = w
        · rw [if_pos ⟨rfl, hw⟩]
          rw [rlBound_rlSet_self_eq k 1 (t / WINDOW_MS) w hw.symm] at htail
          rw [hL] at htail ⊢
          omega
        · rw [if_neg (by rintro ⟨-, hww⟩; exact hw hww)]
          rw [rlBound_rlSet_self_ne k 1 (t / WINDOW_MS) w (fun hww => hw hww.symm)] at htail
          simpa using htail
      · rw [if_neg (by rintro ⟨hkk, -⟩; exact hk hkk)]
        rw [rlBound_rlSet_other _ w (fun h => hk h.symm)] at htail
        simpa using htail
    · have hwin : e.window ≤ t / WINDOW_MS := hinv k e hA (k, t) (List.mem_cons_self _ _) rfl
      by_cases heq : e.window = t / WINDOW_MS
      · by_cases hlt : e.count < LIMIT
        · -- same window, still below the limit: admit and increment
          rw [countAdmitted_cons_pass (checkRateLimit_incr hA heq hlt)]
          have htail := ih (rlSet s k ⟨e.count + 1, e.window⟩) hmrest
            (by
              intro k' e' h' r hr hk
              by_cases hkk : k' = k
              · subst hkk
                rw [rlSet_self] at h'
                cases h'
                exact le_trans hwin (hdiv r hr)
              · rw [rlSet_other _ _ _ hkk] at h'
                exact hinvRest k' e' h' r hr hk) key w
          by_cases hk : k = key
          · subst hk
            by_cases hw : t / WINDOW_MS = w
            · have hwe : w = e.window := by omega
              rw [if_pos ⟨rfl, hw⟩, rlBound_some_eq hA hwe]
              rw [rlBound_rlSet_self_eq k (e.count + 1) e.window w hwe] at htail
              have hlt30 : e.count < 30 := by rw [hL] at hlt; exact hlt
              rw [hL] at htail ⊢
              omega
            · have hwe : w ≠ e.window := by omega
              rw [if_neg (by rintro ⟨-, hww⟩; exact hw hww), rlBound_some_ne hA hwe]
              rw [rlBound_rlSet_self_ne k (e.count + 1) e.window w hwe] at htail
              simpa using htail
          · rw [if_neg (by rintro ⟨hkk, -⟩; exact hk hkk)]
            rw [rlBound_rlSet_other _ w (fun h => hk h.symm)] at htail
            simpa using htail
        · -- same window, at the limit: refuse, state unchanged
          rw [countAdmitted_cons_reject (checkRateLimit_reject hA heq hlt)]
          exact ih s hmrest hinvRest key w
      · -- stale window: admit and reset to (1, current window)
        rw [countAdmitted_cons_pass (checkRateLimit_newWindow hA heq)]
        have hwlt : e.window < t / WINDOW_MS := lt_of_le_of_ne hwin heq
        have htail := ih (rlSet s k ⟨1, t / WINDOW_MS⟩) hmrest (hinvSet _ hdiv) key w
        by_cases hk : k = key
        · subst hk
          by_cases hw : t / WINDOW_MS = w
          · rw [if_pos ⟨rfl, hw⟩, rlBound_some_ne hA (by omega)]
            rw [rlBound_rlSet_self_eq k 1 (t / WINDOW_MS) w hw.symm] at htail
            rw [hL] at htail ⊢
            omega
          · rw [if_neg (by rintro ⟨-, hww⟩; exact hw hww)]
            by_cases hwe : w = e.window
            · -- the stale window can gain no further admissions: every later
              -- request of this key lies in a strictly newer fixed window
              rw [countAdmitted_eq_zero k w rest (rlSet s k ⟨1, t / WINDOW_MS⟩)
                (fun r hr _ => by have := hdiv r hr; omega)]
              exact Nat.zero_le _
            · rw [rlBound_some_ne hA hwe]
              rw [rlBound_rlSet_self_ne k 1 (t / WINDOW_MS) w (fun hww => hw hww.symm)] at htail
              simpa using htail
        · rw [if_neg (by rintro ⟨hkk, -⟩; exact hk hkk)]
          rw [rlBound_rlSet_other _ w (fun h => hk h.symm)] at htail
          simpa using htail

/-- C1 counterexample: the claim says the limiter admits at most 30 relay
requests per peer key within ANY rolling 60-second window, refusing every
request beyond the 30th.  The source buckets requests by the fixed window
`Math.floor(Date.now() / 60000)`: running the limiter from its initial
state over 30 requests at t = 59999 ms followed by one request at
t = 60000 ms — 31 requests of the same key inside a 2 ms span, hence
inside a single rolling 60-second window — admits all 31, and the 31st
is not refused. -/
theorem claim1_counterexample :
    runRL rlInit (List.replicate 30 ("p", 59999) ++ [("p", 60000)])
      = List.replicate 31 true ∧
    ∀ r ∈ List.replicate 30 ("p", 59999) ++ [("p", 60000)],
      59999 ≤ r.2 ∧ r.2 ≤ 60000 := by
  decide

/-- C1 (amended): for every peer key, among the requests of any single
FIXED 60-second window (requests sharing `Math.floor(t / 60000)`, with
timestamps nondecreasing as `Date.now()` is), the limiter admits at most
30; and whenever the limiter refuses a relay, the daemon answers
`success:false` with error `Rate limit exceeded` and appends one audit
failure line. -/
theorem claim1_rate_limit_fixed_window :
    (∀ reqs : List (String × Nat), List.Pairwise (fun a b => a.2 ≤ b.2) reqs →
      ∀ (key : String) (w : Nat), countAdmitted key w rlInit reqs ≤ LIMIT) ∧
    (∀ (now : Nat) (rl : RLState) (remoteAddress : Option String) (target ctype : String)
        (faf : Bool) (env : RelayEnv),
      (checkRateLimit (keyOf remoteAddress) now rl).1 = false →
      (handleRelayCase now rl remoteAddress target ctype faf env).reply
          = .failure "Rate limit exceeded" ∧
      (handleRelayCase now rl remoteAddress target ctype faf env).audits
          = [⟨keyOf remoteAddress, "relay", none, false, some "Rate limit exceeded"⟩]) := by
  constructor
  · intro reqs hmono key w
    have hb := countAdmitted_le_rlBound reqs rlInit hmono
      (by intro k e h r hr hk; exact absurd h (by simp [rlInit])) key w
    rwa [rlBound_none (show rlInit key = none from rfl)] at hb
  · intro now rl ra target ctype faf env h
    constructor <;> simp [handleRelayCase, h]

theorem claim1_rate_limit_fixed_window_witness :
    countAdmitted "p" 0 rlInit [("p", 10), ("p", 20)] ≤ LIMIT ∧
    (handleRelayCase 10 (fun k => if k = "local" then some ⟨30, 0⟩ else none) none "s1" "send"
        false ⟨fun _ => false, [], .ok ⟨true, none⟩, .ok (), .ok ⟨true, none⟩⟩).reply
      = .failure "Rate limit exceeded" ∧
    (handleRelayCase 10 (fun k => if k = "local" then some ⟨30, 0⟩ else none) none "s1" "send"
        false ⟨fun _ => false, [], .ok ⟨true, none⟩, .ok (), .ok ⟨true, none⟩⟩).audits
      = [⟨"local", "relay", none, false, some "Rate limit exceeded"⟩] := by
  have h2 := claim1_rate_limit_fixed_window.2 10
    (fun k => if k = "local" then some ⟨30, 0⟩ else none) none "s1" "send" false
    ⟨fun _ => false, [], .ok ⟨true, none⟩, .ok (), .ok ⟨true, none⟩⟩ (by decide)
  exact ⟨claim1_rate_limit_fixed_window.1 [("p", 10), ("p", 20)] (by decide) "p" 0, h2.1, h2.2⟩

end RemoteControl
